import Mathlib

/-!
Verification development for the GraphChain backend (trace-to-graph
aggregation and snapshot persistence engine).

The definitions below are a shallow embedding of the Express/Postgres
handlers in `src/server.js` over an explicit database state.  SQL tables
become lists of row structures, SERIAL columns become explicit counters,
and each HTTP handler becomes a pure function from the database state
(plus the responses of external collaborators, passed as parameters) to
a response value together with the resulting database state and, where a
claim needs it, a log of the I/O effects performed.
-/

/-- JSON-style scalar value, used for the dynamically-shaped trace edge
objects built by the snapshot read handler. -/
inductive JVal where
  | str : String → JVal
  | num : Int → JVal
deriving DecidableEq, Repr

/-- A JSON object: an ordered list of field-name/value pairs, mirroring a
JavaScript object literal. -/
abbrev JObj := List (String × JVal)

/-- Field lookup on a JSON object (`obj[k]`), `none` when the key is absent. -/
def JObj.get (o : JObj) (k : String) : Option JVal :=
  (o.find? (fun p => p.1 == k)).map (fun p => p.2)

/-- One row of the `traces` table (see `migrations/database_schema.sql`). -/
structure TraceRow where
  trace_id : String
  tx_hash : String
  block_number : Int
  from_addr : String
  to_addr : String
  storage_addr : String
  value : String
  action : String
  call_data : Option String := none
deriving DecidableEq, Repr

/-- One row of the `addresses` table.  The bytecode/source/ABI/compiler
columns are never read by the handlers under verification and are kept as
an opaque option field each would add nothing; the columns the handlers
read (`address`, `contract_name`, `protocol_id`) are present. -/
structure AddressRow where
  address : String
  is_contract : Bool := false
  is_proxy : Bool := false
  is_verified : Bool := false
  contract_name : Option String := none
  protocol_id : Option Nat := none
deriving DecidableEq, Repr

/-- One row of the `snapshots` table. -/
structure SnapshotRow where
  id : Nat
  protocol_id : Option Nat := none
  name : String
  description : Option String := none
deriving DecidableEq, Repr

/-- One row of the `snapshot_nodes` table. -/
structure SnapshotNodeRow where
  node_id : Nat
  x : Int
  y : Int
  address : String
  snapshot_id : Nat
deriving DecidableEq, Repr

/-- One row of the `security_check` table (`reports` is a JSONB column,
modelled as a `JVal`). -/
structure SecurityCheckRow where
  address : String
  score : Int
  reports : JVal
deriving DecidableEq, Repr

/-- The database state.  `nextSnapshotId` and `nextNodeId` model the
SERIAL sequences backing `snapshots.id` and `snapshot_nodes.node_id`;
as in Postgres, sequence advancement is not undone by ROLLBACK. -/
structure DB where
  addresses : List AddressRow
  snapshots : List SnapshotRow
  snapshot_nodes : List SnapshotNodeRow
  traces : List TraceRow
  security_check : List SecurityCheckRow
  nextSnapshotId : Nat
  nextNodeId : Nat
deriving DecidableEq, Repr

/-- `SELECT id FROM snapshots WHERE name = $1` followed by `rows[0]`. -/
def findSnapshotByName (db : DB) (name : String) : Option SnapshotRow :=
  db.snapshots.find? (fun r => decide (r.name = name))

/-! ### POST /api/addresses/snapshot -/

/-- A node object from the request body; a `none` field models a missing
(JavaScript `undefined`) property. -/
structure NodeInput where
  x : Option Int := none
  y : Option Int := none
  address : Option String := none
deriving DecidableEq, Repr

/-- Outcome of the snapshot-save handler. -/
inductive SaveResult where
  | badRequest (msg : String)
  | ok (snapshot_id : Nat)
deriving DecidableEq, Repr

/-- Whether a save outcome is an HTTP 400 client validation error. -/
def SaveResult.isClientError : SaveResult → Bool
  | .badRequest _ => true
  | .ok _ => false

/-- The delete branch of the save handler: if a snapshot with this name
exists, delete its node rows and then its snapshot row. -/
def deleteSnapshotByName (db : DB) (name : String) : DB :=
  match findSnapshotByName db name with
  | some existing =>
      { db with
        snapshot_nodes :=
          db.snapshot_nodes.filter (fun nd => decide (nd.snapshot_id ≠ existing.id)),
        snapshots := db.snapshots.filter (fun r => decide (r.id ≠ existing.id)) }
  | none => db

/-- ROLLBACK: the table contents revert to the pre-transaction state while
the SERIAL sequences keep any advancement, as in Postgres. -/
def rollbackDB (orig cur : DB) : DB :=
  { orig with nextSnapshotId := cur.nextSnapshotId, nextNodeId := cur.nextNodeId }

/-- The node-insertion loop of the save handler: each node is validated
(`x`/`y`/`address` must not be undefined) and inserted; a validation
failure rolls the transaction back to `orig` and reports 400. -/
def insertNodes (orig : DB) (cur : DB) (snapshotId : Nat) :
    List NodeInput → SaveResult × DB
  | [] => (.ok snapshotId, cur)
  | n :: rest =>
    match n.x, n.y, n.address with
    | some nx, some ny, some naddr =>
        insertNodes orig
          { cur with
            snapshot_nodes := cur.snapshot_nodes ++
              [{ node_id := cur.nextNodeId, x := nx, y := ny,
                 address := naddr, snapshot_id := snapshotId }],
            nextNodeId := cur.nextNodeId + 1 }
          snapshotId rest
    | _, _, _ =>
        (.badRequest ("Each node must have x, y, and address properties"),
         rollbackDB orig cur)

/-- POST /api/addresses/snapshot: validate the body, then in one
transaction delete any existing snapshot with this name, insert a fresh
snapshot row, and insert every node.  `snapshot_nodes? = none` models a
body whose `snapshot_nodes` is not an array. -/
def saveSnapshot (db : DB) (snapshot_name : String)
    (snapshot_nodes? : Option (List NodeInput)) : SaveResult × DB :=
  match snapshot_nodes? with
  | none =>
      (.badRequest ("Invalid request body. snapshot_name and snapshot_nodes array are required"), db)
  | some nodes =>
    if snapshot_name = "" then
      (.badRequest ("Invalid request body. snapshot_name and snapshot_nodes array are required"), db)
    else
      let db1 := deleteSnapshotByName db snapshot_name
      let snapshotId := db1.nextSnapshotId
      let db2 := { db1 with
        snapshots := db1.snapshots ++ [{ id := snapshotId, name := snapshot_name }],
        nextSnapshotId := snapshotId + 1 }
      insertNodes db db2 snapshotId nodes

/-! ### GET /api/snapshot/:snapshotName -/

/-- A node as returned by the snapshot read handler
(`SELECT node_id, x, y, address FROM snapshot_nodes ...`). -/
structure NodeOut where
  node_id : Nat
  x : Int
  y : Int
  address : String
deriving DecidableEq, Repr

/-- The JSON body of a successful snapshot read. -/
structure SnapshotOut where
  snapshot_name : String
  snapshot_id : Nat
  nodes : List NodeOut
  traces : List JObj
deriving DecidableEq, Repr

/-- Outcome of the snapshot read handler. -/
inductive ReadResult where
  | notFound
  | ok (out : SnapshotOut)
deriving DecidableEq, Repr

/-- The trace edges of a read outcome (empty on 404). -/
def ReadResult.tracesOf : ReadResult → List JObj
  | .notFound => []
  | .ok out => out.traces

/-- The actions classified as normal calls by the snapshot read queries. -/
def normalActions : List String := ["call", "create", "create2"]

/-- The actions classified as delegate calls by the snapshot read queries. -/
def delegateActions : List String := ["delegate_call"]

/-- GET /api/snapshot/:snapshotName.  Returns the response together with
the number of queries issued against the `traces` ledger.  The two
SELECT ... GROUP BY queries are modelled as a filter over the ledger
followed by deduplication of the selected key columns (GROUP BY emits one
row per distinct key; its emission order is unspecified in SQL). -/
def readSnapshot (db : DB) (snapshotName : String) : ReadResult × Nat :=
  match findSnapshotByName db snapshotName with
  | none => (.notFound, 0)
  | some snap =>
    let snapshotId := snap.id
    let nodes : List NodeOut :=
      (db.snapshot_nodes.filter (fun nd => decide (nd.snapshot_id = snapshotId))).map
        (fun nd => { node_id := nd.node_id, x := nd.x, y := nd.y, address := nd.address })
    let addresses := nodes.map (fun nd => nd.address)
    if addresses.length = 0 then
      (.ok { snapshot_name := snapshotName, snapshot_id := snapshotId,
             nodes := [], traces := [] }, 0)
    else
      let normalRows := db.traces.filter (fun t =>
        decide (t.action ∈ normalActions ∧ t.from_addr ∈ addresses ∧ t.to_addr ∈ addresses))
      let normalKeys := (normalRows.map (fun t => (t.from_addr, t.to_addr, t.action))).dedup
      let delegateRows := db.traces.filter (fun t =>
        decide (t.action ∈ delegateActions ∧ t.storage_addr ∈ addresses ∧ t.to_addr ∈ addresses))
      let delegateKeys := (delegateRows.map (fun t => (t.storage_addr, t.to_addr, t.action))).dedup
      let traces : List JObj :=
        normalKeys.map (fun k =>
          [("from_addr", JVal.str k.1), ("to_addr", JVal.str k.2.1), ("action", JVal.str k.2.2)]) ++
        delegateKeys.map (fun k =>
          [("storage_addr", JVal.str k.1), ("to_addr", JVal.str k.2.1), ("action", JVal.str k.2.2)])
      (.ok { snapshot_name := snapshotName, snapshot_id := snapshotId,
             nodes := nodes, traces := traces }, 2)

/-! ### GET /api/trace -/

/-- A raw trace object as delivered by the logic server; the handler only
inspects the three address fields, each of which may be absent. -/
structure TraceMsg where
  from_addr : Option String := none
  to_addr : Option String := none
  storage_addr : Option String := none
deriving DecidableEq, Repr

/-- JavaScript truthiness of an optional string (`undefined` and the
empty string are falsy). -/
def truthyOptStr : Option String → Bool
  | none => false
  | some s => !(s = "")

/-- The truthy address fields of one trace, in the order the handler
tests them (`from_addr`, `to_addr`, `storage_addr`). -/
def traceAddrs (t : TraceMsg) : List String :=
  (match t.from_addr with
   | some s => if s = "" then [] else [s]
   | none => []) ++
  (match t.to_addr with
   | some s => if s = "" then [] else [s]
   | none => []) ++
  (match t.storage_addr with
   | some s => if s = "" then [] else [s]
   | none => [])

/-- The unique addresses appearing in a trace batch (`new Set()` plus
spread; the JS set is modelled up to membership by list deduplication). -/
def collectAddresses (traces : List TraceMsg) : List String :=
  ((traces.map traceAddrs).flatten).dedup

/-- The address-to-metadata map built by the trace handler: an ordered
association list mirroring the JS `metadata` object, whose single
metadata field is `contract_name`. -/
abbrev MetaMap := List (String × Option String)

/-- Whether the JS object has the key (`!metadata[k]` guard, with an
object value always truthy). -/
def hasKey (m : MetaMap) (k : String) : Bool :=
  m.any (fun p => p.1 == k)

/-- Value of the JS object at a key. -/
def getKey (m : MetaMap) (k : String) : Option (Option String) :=
  (m.find? (fun p => p.1 == k)).map (fun p => p.2)

/-- JS object assignment `m[k] = v`, modelled lookup-faithfully: the new
binding shadows any earlier one, so `getKey` afterwards answers `v` for
`k` and is unchanged elsewhere — exactly the observable behaviour of the
JS object (the handlers never enumerate the map's key order). -/
def objSet (m : MetaMap) (k : String) (v : Option String) : MetaMap :=
  (k, v) :: m

/-- First loop of the enrichment block: each returned address row seeds
`metadata[row.address] = \x7b contract_name: row.contract_name \x7d`. -/
def buildBaseMetadata (rows : List AddressRow) : MetaMap :=
  rows.foldl (fun m row => objSet m row.address row.contract_name) []

/-- Second loop of the enrichment block: every address of the batch that
is still absent from the map receives an all-null metadata entry. -/
def ensureAllKeys (m : MetaMap) (addressList : List String) : MetaMap :=
  addressList.foldl (fun m addr => if hasKey m addr then m else objSet m addr none) m

/-- The metadata section of the trace handler.  `dbOk = false` models the
`SELECT ... FROM addresses WHERE address = ANY($1)` query throwing: the
caught error leaves `metadata` as the empty object. -/
def fetchMetadata (db : DB) (dbOk : Bool) (addressList : List String) : MetaMap :=
  if addressList.length > 0 then
    if dbOk then
      ensureAllKeys
        (buildBaseMetadata (db.addresses.filter (fun a => decide (a.address ∈ addressList))))
        addressList
    else []
  else []

/-- Outcome of GET /api/trace. -/
inductive TraceResponse where
  | badRequest
  | notFound (msg : String)
  | notImplemented
  | ok (traces : List TraceMsg) (metadata : MetaMap)
deriving DecidableEq, Repr

/-- The metadata map of a trace response (empty on error responses). -/
def TraceResponse.metadataOf : TraceResponse → MetaMap
  | .ok _ m => m
  | _ => []

/-- The tail of the trace handler once traces were fetched: collect the
unique addresses, enrich, and answer 200 with traces plus metadata. -/
def traceSuccess (db : DB) (dbOk : Bool) (traces : List TraceMsg) : TraceResponse :=
  .ok traces (fetchMetadata db dbOk (collectAddresses traces))

/-- GET /api/trace: dispatch on which query parameter is truthy;
`upstream` is the logic server's answer for the selected lookup
(`.error` models an axios failure). -/
def traceHandler (db : DB) (dbOk : Bool) (address tx block : Option String)
    (upstream : Except Unit (List TraceMsg)) : TraceResponse :=
  if truthyOptStr address then
    match upstream with
    | .error _ => .notFound ("Address not found")
    | .ok traces => traceSuccess db dbOk traces
  else if truthyOptStr tx then .notImplemented
  else if truthyOptStr block then
    match upstream with
    | .error _ => .notFound ("Block not found")
    | .ok traces => traceSuccess db dbOk traces
  else .badRequest

/-! ### GET /api/security/check/:address -/

/-- One hexadecimal character class of the address regex `[a-fA-F0-9]`. -/
def isHexChar (c : Char) : Bool :=
  c.isDigit || ('a' ≤ c && c ≤ 'f') || ('A' ≤ c && c ≤ 'F')

/-- The handler's validation `address.match(/^0x[a-fA-F0-9]\x7b40\x7d$/)`
(the separate `!address` guard is subsumed: the empty string cannot
match). -/
def matchesEthAddress (s : String) : Bool :=
  s.toList.length = 42 && s.toList.take 2 = ['0', 'x'] && (s.toList.drop 2).all isHexChar

/-- The intended address shape, stated independently of the handler:
a two-character `0x` marker followed by exactly 40 hexadecimal digits. -/
abbrev WellFormedEthAddress (s : String) : Prop :=
  s.toList.length = 42 ∧ s.toList.take 2 = ['0', 'x'] ∧
    ∀ c ∈ s.toList.drop 2, (c.isDigit = true ∨ ('a' ≤ c ∧ c ≤ 'f') ∨ ('A' ≤ c ∧ c ≤ 'F'))

/-- The body of the external scorer's answer; a `none` field models a
missing (or JSON `null`) property. -/
structure ScorerData where
  score : Option Int := none
  reports : Option JVal := none
deriving DecidableEq, Repr

/-- JavaScript truthiness of a scalar JSON value. -/
def truthyJVal : JVal → Bool
  | .str s => !(s = "")
  | .num n => !(n = 0)

/-- One observable I/O effect of the security handler. -/
inductive SecEvent where
  | dbQuery
  | metadataFetch
  | scorerCall
deriving DecidableEq, Repr

/-- The JSON body of a successful security check. -/
structure SecResponse where
  address : String
  score : Int
  reports : JVal
  cached : Bool
deriving DecidableEq, Repr

/-- Outcome of GET /api/security/check/:address. -/
inductive SecResult where
  | badRequest
  | ok (r : SecResponse)
  | serviceError
deriving DecidableEq, Repr

/-- GET /api/security/check/:address.  `metadataOk = false` models the
self-referential metadata fetch failing; `scorerData? = none` models the
scorer call failing or answering a falsy body.  Returns the response,
the resulting database state and the ordered list of I/O effects. -/
def securityCheck (db : DB) (address : String)
    (metadataOk : Bool) (scorerData? : Option ScorerData) :
    SecResult × DB × List SecEvent :=
  if !(matchesEthAddress address) then (.badRequest, db, [])
  else
    match db.security_check.find? (fun r => decide (r.address = address)) with
    | some row => (.ok { address := row.address, score := row.score,
                         reports := row.reports, cached := true }, db, [.dbQuery])
    | none =>
      if !metadataOk then (.serviceError, db, [.dbQuery, .metadataFetch])
      else
        match scorerData? with
        | some { score := some sc, reports := some rep } =>
            if !(sc = 0) && truthyJVal rep then
              (.ok { address := address, score := sc, reports := rep, cached := false },
               { db with security_check :=
                   db.security_check ++ [{ address := address, score := sc, reports := rep }] },
               [.dbQuery, .metadataFetch, .scorerCall])
            else (.serviceError, db, [.dbQuery, .metadataFetch, .scorerCall])
        | _ => (.serviceError, db, [.dbQuery, .metadataFetch, .scorerCall])

/-! ### Derived notions and concrete scenarios used by the theorems -/

/-- Equality of all five persisted tables of two database states (the
durable store, as opposed to the SERIAL sequence positions). -/
def tablesEq (a b : DB) : Prop :=
  a.addresses = b.addresses ∧ a.snapshots = b.snapshots ∧
    a.snapshot_nodes = b.snapshot_nodes ∧ a.traces = b.traces ∧
    a.security_check = b.security_check

/-- A snapshot-save request body whose nodes all carry the three required
properties, built from plain (x, y, address) triples. -/
def mkNodes (l : List (Int × Int × String)) : List NodeInput :=
  l.map (fun p => { x := some p.1, y := some p.2.1, address := some p.2.2 })

/-- The node rows the insertion loop produces for the triples `l`,
starting from sequence value `start`, all owned by snapshot `sid`. -/
def nodeRows (start : Nat) (sid : Nat) : List (Int × Int × String) → List SnapshotNodeRow
  | [] => []
  | p :: rest =>
      { node_id := start, x := p.1, y := p.2.1, address := p.2.2, snapshot_id := sid } ::
        nodeRows (start + 1) sid rest

/-- The shape contract of one returned snapshot trace edge: either a
normal edge `\x7bfrom_addr, to_addr, action\x7d` with a normal action and
both endpoints drawn from `addrs`, or a delegate edge
`\x7bstorage_addr, to_addr, action\x7d` with a delegate action and both
endpoints drawn from `addrs` — and nothing of any other shape, so the two
classes never share one normalized schema. -/
def edgeWellFormed (addrs : List String) : JObj → Bool
  | [(kf, JVal.str f), (kt, JVal.str t), (ka, JVal.str a)] =>
      decide (kt = "to_addr") && decide (ka = "action") &&
        decide (f ∈ addrs) && decide (t ∈ addrs) &&
        ((decide (kf = "from_addr") && decide (a ∈ normalActions)) ||
         (decide (kf = "storage_addr") && decide (a ∈ delegateActions)))
  | _ => false

/-- The empty database. -/
def dbEmpty : DB := ⟨[], [], [], [], [], 0, 0⟩

/-- Address `A` of the block-aggregation dedup scenario. -/
def addrA : String := "0xA"

/-- Address `B` of the block-aggregation dedup scenario. -/
def addrB : String := "0xB"

/-- A third address (the delegate caller, irrelevant to the edge key). -/
def addrC : String := "0xC"

/-- Name of the snapshot in the aggregation scenario. -/
def aggName : String := "snap"

/-- Trace row `\x7bfrom: A, to: B, action: call\x7d`. -/
def aggRow1 : TraceRow := ⟨"t1", "h1", 1, addrA, addrB, addrC, "0", "call", none⟩

/-- A second, identical call row (distinct primary key). -/
def aggRow2 : TraceRow := ⟨"t2", "h1", 1, addrA, addrB, addrC, "0", "call", none⟩

/-- Trace row `\x7bstorage: A, to: B, action: delegate_call\x7d`. -/
def aggRow3 : TraceRow := ⟨"t3", "h1", 1, addrC, addrB, addrA, "0", "delegate_call", none⟩

/-- A database holding the three-row scenario of the dedup claim, with a
snapshot named `snap` whose node set is `\x7bA, B\x7d`. -/
def aggDB : DB :=
  ⟨[], [⟨1, none, aggName, none⟩],
   [⟨1, 0, 0, addrA, 1⟩, ⟨2, 0, 0, addrB, 1⟩],
   [aggRow1, aggRow2, aggRow3], [], 2, 3⟩

/-- The normal edge object the aggregation scenario produces. -/
def aggEdgeNormal : JObj :=
  [("from_addr", JVal.str addrA), ("to_addr", JVal.str addrB), ("action", JVal.str ("call"))]

/-- The delegate edge object the aggregation scenario produces. -/
def aggEdgeDelegate : JObj :=
  [("storage_addr", JVal.str addrA), ("to_addr", JVal.str addrB),
   ("action", JVal.str ("delegate_call"))]

/-- The full response body of the aggregation scenario's snapshot read. -/
def aggOut : SnapshotOut :=
  { snapshot_name := aggName, snapshot_id := 1,
    nodes := [⟨1, 0, 0, addrA⟩, ⟨2, 0, 0, addrB⟩],
    traces := [aggEdgeNormal, aggEdgeDelegate] }

/-- A database holding one snapshot named `layout0` with zero nodes. -/
def emptySnapDB : DB := ⟨[], [⟨1, none, "layout0", none⟩], [], [], [], 2, 1⟩

/-- First node set of the save-twice scenario. -/
def c1S1 : List (Int × Int × String) := [(0, 0, "0xa")]

/-- Second node set of the save-twice scenario. -/
def c1S2 : List (Int × Int × String) := [(1, 2, "0xb")]

/-- The database after the first save of the save-twice scenario. -/
def c1DB1 : DB := ⟨[], [⟨0, none, "layout", none⟩], [⟨0, 0, 0, "0xa", 0⟩], [], [], 1, 1⟩

/-- The database after the second save of the save-twice scenario. -/
def c1DB2 : DB := ⟨[], [⟨1, none, "layout", none⟩], [⟨1, 1, 2, "0xb", 1⟩], [], [], 2, 2⟩

/-- A node input missing its `y` property. -/
def badNode : NodeInput := ⟨some 1, none, some "0xa"⟩

/-- An address row for `0xX` with a contract name, for the enrichment
scenario where only `X` exists in storage. -/
def metaDB : DB := ⟨[⟨"0xX", false, false, false, some "Foo", none⟩], [], [], [], [], 0, 0⟩

/-- A one-trace batch touching `0xX` and `0xY`. -/
def metaTraces : List TraceMsg := [⟨some "0xX", some "0xY", none⟩]

/-- A well-formed address used by the security-cache scenario. -/
def secAddr1 : String := "0xaaaaaaaaaaaaaaaaaaaaaaaaaaaaaaaaaaaaaaaa"

/-- A second well-formed address, used by the zero-score scenario. -/
def secAddr2 : String := "0xbbbbbbbbbbbbbbbbbbbbbbbbbbbbbbbbbbbbbbbb"

/-! ### Theorems -/

/-- `fetchMetadata` degrades to the empty map when the address query
throws, whatever the address batch. -/
theorem fetchMetadata_dbFail (db : DB) (l : List String) : fetchMetadata db false l = [] := by
  unfold fetchMetadata
  split <;> simp

/-- C5: the snapshot read reports not-found for an unknown name, while a
stored snapshot with zero nodes yields empty nodes and traces with zero
queries against the trace ledger. -/
theorem c5_read_not_found_vs_empty (db : DB) (name : String) :
    (findSnapshotByName db name = none → readSnapshot db name = (.notFound, 0)) ∧
    (∀ snap : SnapshotRow, findSnapshotByName db name = some snap →
      db.snapshot_nodes.filter (fun nd => decide (nd.snapshot_id = snap.id)) = [] →
      readSnapshot db name =
        (.ok { snapshot_name := name, snapshot_id := snap.id, nodes := [], traces := [] }, 0)) := by
  constructor
  · intro h
    simp [readSnapshot, h]
  · intro snap h hnil
    simp [readSnapshot, h, hnil]

/-- Witness for C5 at concrete inputs: a missing name is 404, a stored
zero-node snapshot answers empty with no ledger query. -/
theorem c5_witness :
    readSnapshot emptySnapDB ("missing") = (.notFound, 0) ∧
    readSnapshot emptySnapDB ("layout0") =
      (.ok { snapshot_name := "layout0", snapshot_id := 1, nodes := [], traces := [] }, 0) :=
  ⟨(c5_read_not_found_vs_empty emptySnapDB ("missing")).1 (by decide),
   (c5_read_not_found_vs_empty emptySnapDB ("layout0")).2 ⟨1, none, "layout0", none⟩
     (by decide) (by decide)⟩

/-- C7: when the metadata lookup backend fails, the trace request still
succeeds and returns the fetched traces with an empty metadata map. -/
theorem c7_enrichment_degrades (db : DB) (address tx block : Option String)
    (traces : List TraceMsg) (haddr : truthyOptStr address = true) :
    traceHandler db false address tx block (.ok traces) = .ok traces [] := by
  simp [traceHandler, haddr, traceSuccess, fetchMetadata_dbFail]

/-- Witness for C7 at a concrete request. -/
theorem c7_witness :
    traceHandler dbEmpty false (some ("0xQ")) none none (.ok metaTraces) =
      .ok metaTraces [] :=
  c7_enrichment_degrades dbEmpty (some ("0xQ")) none none metaTraces (by decide)

/-- C3 counterexample: on the three-row scenario the snapshot read emits
exactly 2 edges, but neither edge carries any `count` field — so no edge
carries count 2 (or count 1). -/
theorem c3_counterexample_no_count :
    (readSnapshot aggDB aggName).1.tracesOf.length = 2 ∧
    ((readSnapshot aggDB aggName).1.tracesOf.all
      (fun e => (JObj.get e ("count")).isNone)) = true := by
  constructor
  · decide
  · decide

/-- C3 as amended: the three rows collapse to exactly 2 edges — one
normal `(A, B, call)` and one delegate `(A, B, delegate_call)`, each
emitted once with no multiplicity count, never merged with each other. -/
theorem c3_amended_dedup : readSnapshot aggDB aggName = (.ok aggOut, 2) := by
  decide

/-- C10: a scorer response whose score is present but 0 is treated as
invalid (the check tests truthiness, not presence): the handler answers a
server error and persists nothing. -/
theorem c10_zero_score_is_scoring_failure (db : DB) (addr : String) (rep : Option JVal)
    (hv : matchesEthAddress addr = true)
    (hfresh : db.security_check.find? (fun r => decide (r.address = addr)) = none) :
    securityCheck db addr true (some { score := some 0, reports := rep }) =
      (.serviceError, db, [.dbQuery, .metadataFetch, .scorerCall]) := by
  cases rep <;> simp [securityCheck, hv, hfresh]

/-- Witness for C10 at a concrete fresh address with a report present. -/
theorem c10_witness :
    securityCheck dbEmpty secAddr2 true (some { score := some 0, reports := some (JVal.str ("r")) }) =
      (.serviceError, dbEmpty, [.dbQuery, .metadataFetch, .scorerCall]) :=
  c10_zero_score_is_scoring_failure dbEmpty secAddr2 (some (JVal.str ("r")))
    (by decide) (by decide)

/-- The handler's regex test agrees exactly with the intended address
shape. -/
theorem matchesEthAddress_iff (s : String) :
    matchesEthAddress s = true ↔ WellFormedEthAddress s := by
  unfold matchesEthAddress WellFormedEthAddress isHexChar
  simp only [Bool.and_eq_true, decide_eq_true_eq, List.all_eq_true, Bool.or_eq_true,
    or_assoc, and_assoc]

/-- C8: a request whose address is not a 0x-prefixed 40-hex-digit string
is rejected with a client error before any database query or outbound
call (empty effect list, database untouched); every well-formed address
passes the validation. -/
theorem c8_validation_before_io (db : DB) (address : String) (mOk : Bool)
    (sd : Option ScorerData) :
    (¬ WellFormedEthAddress address →
      securityCheck db address mOk sd = (.badRequest, db, [])) ∧
    (WellFormedEthAddress address → matchesEthAddress address = true) := by
  constructor
  · intro h
    have hm : matchesEthAddress address = false := by
      cases hv : matchesEthAddress address
      · rfl
      · exact absurd ((matchesEthAddress_iff address).1 hv) h
    simp [securityCheck, hm]
  · intro h
    exact (matchesEthAddress_iff address).2 h

/-- Witness for C8: the malformed address `0xZZZ` is rejected with no
I/O, and a well-formed address passes the regex. -/
theorem c8_witness :
    securityCheck dbEmpty ("0xZZZ") true none = (.badRequest, dbEmpty, []) ∧
    matchesEthAddress secAddr1 = true :=
  ⟨(c8_validation_before_io dbEmpty ("0xZZZ") true none).1 (by decide),
   (c8_validation_before_io dbEmpty secAddr1 true none).2 (by decide)⟩

/-- C9: read-through coherence of the security cache.  For a fresh
address and a valid scorer answer, the first call performs the one scorer
call, persists the result and answers it with `cached = false`; a second
call for the same address performs only the cache query (zero scorer
calls) and answers the stored score/report unchanged with
`cached = true`; and a scorer answer missing its score or its report is a
server error that persists nothing. -/
theorem c9_cache_read_through (db : DB) (addr : String) (sc : Int) (rep : JVal)
    (mOk2 : Bool) (sd2 : Option ScorerData) (d : ScorerData)
    (hv : matchesEthAddress addr = true)
    (hfresh : db.security_check.find? (fun r => decide (r.address = addr)) = none)
    (hsc : sc ≠ 0) (hrep : truthyJVal rep = true)
    (hbad : d.score = none ∨ d.reports = none) :
    securityCheck db addr true (some { score := some sc, reports := some rep }) =
      (.ok { address := addr, score := sc, reports := rep, cached := false },
       { db with security_check :=
           db.security_check ++ [{ address := addr, score := sc, reports := rep }] },
       [.dbQuery, .metadataFetch, .scorerCall]) ∧
    securityCheck
      { db with security_check :=
          db.security_check ++ [{ address := addr, score := sc, reports := rep }] }
      addr mOk2 sd2 =
      (.ok { address := addr, score := sc, reports := rep, cached := true },
       { db with security_check :=
           db.security_check ++ [{ address := addr, score := sc, reports := rep }] },
       [.dbQuery]) ∧
    securityCheck db addr true (some d) =
      (.serviceError, db, [.dbQuery, .metadataFetch, .scorerCall]) := by
  refine ⟨?_, ?_, ?_⟩
  · simp [securityCheck, hv, hfresh, hsc, hrep]
  · have hfind :
        ((db.security_check ++ [(⟨addr, sc, rep⟩ : SecurityCheckRow)]).find?
          (fun r => decide (r.address = addr))) =
          some (⟨addr, sc, rep⟩ : SecurityCheckRow) := by
      rw [List.find?_append, hfresh]
      simp
    simp [securityCheck, hv, hfind]
  · obtain ⟨ds, dr⟩ := d
    rcases hbad with h | h <;> simp only at h <;> subst h
    · cases dr <;> simp [securityCheck, hv, hfresh]
    · cases ds <;> simp [securityCheck, hv, hfresh]

/-- Witness for C9 at a concrete fresh address, score 7 and a string
report, with a score-missing answer for the failure part. -/
theorem c9_witness :
    securityCheck dbEmpty secAddr1 true (some { score := some 7, reports := some (JVal.str ("r")) }) =
      (.ok { address := secAddr1, score := 7, reports := JVal.str ("r"), cached := false },
       { dbEmpty with security_check := [{ address := secAddr1, score := 7, reports := JVal.str ("r") }] },
       [.dbQuery, .metadataFetch, .scorerCall]) ∧
    securityCheck
      { dbEmpty with security_check := [{ address := secAddr1, score := 7, reports := JVal.str ("r") }] }
      secAddr1 true none =
      (.ok { address := secAddr1, score := 7, reports := JVal.str ("r"), cached := true },
       { dbEmpty with security_check := [{ address := secAddr1, score := 7, reports := JVal.str ("r") }] },
       [.dbQuery]) ∧
    securityCheck dbEmpty secAddr1 true (some { score := none, reports := some (JVal.num 1) }) =
      (.serviceError, dbEmpty, [.dbQuery, .metadataFetch, .scorerCall]) :=
  c9_cache_read_through dbEmpty secAddr1 7 (JVal.str ("r")) true none
    { score := none, reports := some (JVal.num 1) }
    (by decide) (by decide) (by decide) (by decide) (Or.inl rfl)

/-- Looking up the key just assigned answers the assigned value. -/
theorem getKey_objSet_self (m : MetaMap) (k : String) (v : Option String) :
    getKey (objSet m k v) k = some v := by
  unfold objSet getKey
  rw [List.find?_cons_of_pos _ (by simp)]
  rfl

/-- Assignment to one key leaves every other key's lookup unchanged. -/
theorem getKey_objSet_other (m : MetaMap) (k k' : String) (v : Option String)
    (h : k' ≠ k) : getKey (objSet m k v) k' = getKey m k' := by
  unfold objSet getKey
  rw [List.find?_cons_of_neg _ (by simp [beq_iff_eq]; exact fun he => h he.symm)]

/-- A key whose lookup succeeds is present. -/
theorem hasKey_of_getKey_some (m : MetaMap) (k : String) (v : Option String)
    (h : getKey m k = some v) : hasKey m k = true := by
  unfold getKey at h
  unfold hasKey
  cases hf : m.find? (fun p => p.1 == k) with
  | none => rw [hf] at h; simp at h
  | some q =>
      have hq := List.find?_some hf
      exact List.any_eq_true.2 ⟨q, List.mem_of_find?_eq_some hf, hq⟩

/-- A present key's lookup succeeds. -/
theorem getKey_of_hasKey (m : MetaMap) (k : String) (h : hasKey m k = true) :
    ∃ v, getKey m k = some v := by
  obtain ⟨q, hqm, hq⟩ := List.any_eq_true.1 h
  cases hf : m.find? (fun p => p.1 == k) with
  | none => exact absurd hq (by simpa using List.find?_eq_none.1 hf q hqm)
  | some r => exact ⟨r.2, by simp [getKey, hf]⟩

/-- The null-filling loop never disturbs a key that already has a value. -/
theorem getKey_ensureAllKeys_preserve (l : List String) (m : MetaMap) (addr : String)
    (v : Option String) (h : getKey m addr = some v) :
    getKey (ensureAllKeys m l) addr = some v := by
  induction l generalizing m with
  | nil => exact h
  | cons a rest ih =>
    show getKey (ensureAllKeys (if hasKey m a then m else objSet m a none) rest) addr = some v
    apply ih
    by_cases hk : hasKey m a = true
    · rw [if_pos hk]; exact h
    · rw [if_neg hk]
      by_cases hak : a = addr
      · subst hak
        exact absurd (hasKey_of_getKey_some m a v h) hk
      · rw [getKey_objSet_other m a addr none (fun he => hak he.symm)]
        exact h

/-- After the null-filling loop every address of the batch has an entry,
and an address the base map did not know gets the all-null entry. -/
theorem getKey_ensureAllKeys_mem (l : List String) (m : MetaMap) (addr : String)
    (h : addr ∈ l) :
    (getKey (ensureAllKeys m l) addr).isSome = true ∧
    (getKey m addr = none → getKey (ensureAllKeys m l) addr = some none) := by
  induction l generalizing m with
  | nil => cases h
  | cons a rest ih =>
    show (getKey (ensureAllKeys (if hasKey m a then m else objSet m a none) rest) addr).isSome = true ∧
      (getKey m addr = none →
        getKey (ensureAllKeys (if hasKey m a then m else objSet m a none) rest) addr = some none)
    by_cases hak : addr = a
    · subst hak
      by_cases hk : hasKey m addr = true
      · obtain ⟨v₀, hv₀⟩ := getKey_of_hasKey m addr hk
        rw [if_pos hk]
        have hpres := getKey_ensureAllKeys_preserve rest m addr v₀ hv₀
        exact ⟨by rw [hpres]; rfl, fun hnone => by rw [hv₀] at hnone; cases hnone⟩
      · rw [if_neg hk]
        have hpres := getKey_ensureAllKeys_preserve rest (objSet m addr none) addr none
          (getKey_objSet_self m addr none)
        exact ⟨by rw [hpres]; rfl, fun _ => hpres⟩
    · have hmem : addr ∈ rest := by
        rcases List.mem_cons.1 h with h' | h'
        · exact absurd h' hak
        · exact h'
      obtain ⟨h1, h2⟩ := ih (if hasKey m a then m else objSet m a none) hmem
      refine ⟨h1, fun hnone => h2 ?_⟩
      by_cases hk : hasKey m a = true
      · rw [if_pos hk]; exact hnone
      · rw [if_neg hk]
        rw [getKey_objSet_other m a addr none hak]
        exact hnone

/-- Seeding the map from rows that never mention `addr` leaves `addr`
absent. -/
theorem getKey_foldl_objSet_absent (rows : List AddressRow) (m : MetaMap) (addr : String)
    (hm : getKey m addr = none)
    (h : ∀ row ∈ rows, row.address ≠ addr) :
    getKey (rows.foldl (fun m row => objSet m row.address row.contract_name) m) addr = none := by
  induction rows generalizing m with
  | nil => exact hm
  | cons r rest ih =>
    show getKey (rest.foldl _ (objSet m r.address r.contract_name)) addr = none
    apply ih
    · rw [getKey_objSet_other m r.address addr r.contract_name
        (fun he => h r (List.mem_cons_self r rest) he.symm)]
      exact hm
    · exact fun row hrow => h row (List.mem_cons_of_mem r hrow)

/-- The base map only knows addresses of the returned rows. -/
theorem getKey_buildBase_absent (rows : List AddressRow) (addr : String)
    (h : ∀ row ∈ rows, row.address ≠ addr) :
    getKey (buildBaseMetadata rows) addr = none :=
  getKey_foldl_objSet_absent rows [] addr rfl h

/-- C6: on a successful metadata lookup, every unique address collected
from the trace batch has an entry in the returned metadata map, and an
address absent from the address store gets the all-null entry rather than
being omitted. -/
theorem c6_metadata_totality (db : DB) (traces : List TraceMsg) (addr : String)
    (h : addr ∈ collectAddresses traces) :
    (getKey ((traceSuccess db true traces).metadataOf) addr).isSome = true ∧
    ((∀ row ∈ db.addresses, row.address ≠ addr) →
      getKey ((traceSuccess db true traces).metadataOf) addr = some none) := by
  have hlen : 0 < (collectAddresses traces).length :=
    List.length_pos.2 (List.ne_nil_of_mem h)
  have hmeta : (traceSuccess db true traces).metadataOf =
      ensureAllKeys
        (buildBaseMetadata
          (db.addresses.filter (fun a => decide (a.address ∈ collectAddresses traces))))
        (collectAddresses traces) := by
    simp [traceSuccess, TraceResponse.metadataOf, fetchMetadata, hlen]
  rw [hmeta]
  obtain ⟨h1, h2⟩ := getKey_ensureAllKeys_mem (collectAddresses traces)
    (buildBaseMetadata
      (db.addresses.filter (fun a => decide (a.address ∈ collectAddresses traces))))
    addr h
  refine ⟨h1, fun habs => h2 ?_⟩
  exact getKey_buildBase_absent _ addr
    (fun row hrow => habs row (List.mem_of_mem_filter hrow))

/-- Witness for C6: in a store knowing only `0xX`, the batch touching
`0xX` and `0xY` yields a map where `0xY` is present with a null entry. -/
theorem c6_witness :
    (getKey ((traceSuccess metaDB true metaTraces).metadataOf) ("0xY")).isSome = true ∧
    getKey ((traceSuccess metaDB true metaTraces).metadataOf) ("0xY") = some none :=
  ⟨(c6_metadata_totality metaDB metaTraces ("0xY") (by decide)).1,
   (c6_metadata_totality metaDB metaTraces ("0xY") (by decide)).2 (by decide)⟩

/-- A node list containing an invalid node makes the insertion loop roll
the transaction back to the original table contents, whatever the
accumulated working state. -/
theorem insertNodes_invalid (orig : DB) (sid : Nat) (nodes : List NodeInput)
    (hbad : ∃ n ∈ nodes, n.x = none ∨ n.y = none ∨ n.address = none) :
    ∀ cur : DB, ∃ cur' : DB, insertNodes orig cur sid nodes =
      (.badRequest ("Each node must have x, y, and address properties"),
       rollbackDB orig cur') := by
  induction nodes with
  | nil =>
    obtain ⟨n, hn, _⟩ := hbad
    cases hn
  | cons n rest ih =>
    intro cur
    obtain ⟨nx, ny, na⟩ := n
    cases nx with
    | none => exact ⟨cur, by simp [insertNodes]⟩
    | some vx =>
      cases ny with
      | none => exact ⟨cur, by simp [insertNodes]⟩
      | some vy =>
        cases na with
        | none => exact ⟨cur, by simp [insertNodes]⟩
        | some va =>
          have hrest : ∃ m ∈ rest, m.x = none ∨ m.y = none ∨ m.address = none := by
            obtain ⟨m, hm, hbm⟩ := hbad
            rcases List.mem_cons.1 hm with he | hmem
            · subst he
              rcases hbm with h | h | h <;> cases h
            · exact ⟨m, hmem, hbm⟩
          obtain ⟨cur', hcur'⟩ := ih hrest
            { cur with
              snapshot_nodes := cur.snapshot_nodes ++
                [{ node_id := cur.nextNodeId, x := vx, y := vy,
                   address := va, snapshot_id := sid }],
              nextNodeId := cur.nextNodeId + 1 }
          exact ⟨cur', by simpa [insertNodes] using hcur'⟩

/-- C2: a save whose node list has a node missing `x`, `y` or `address`
answers a client validation error and leaves every persisted table
exactly as before (the whole transaction, including the delete of any
pre-existing snapshot, is rolled back), so a subsequent read of the name
behaves exactly as before the call. -/
theorem c2_save_rollback (db : DB) (name : String) (nodes : List NodeInput)
    (hbad : ∃ n ∈ nodes, n.x = none ∨ n.y = none ∨ n.address = none) :
    (saveSnapshot db name (some nodes)).1.isClientError = true ∧
    tablesEq (saveSnapshot db name (some nodes)).2 db ∧
    readSnapshot (saveSnapshot db name (some nodes)).2 name = readSnapshot db name := by
  by_cases hname : name = ""
  · simp only [saveSnapshot]
    rw [if_pos hname]
    exact ⟨rfl, ⟨rfl, rfl, rfl, rfl, rfl⟩, rfl⟩
  · obtain ⟨cur', hcur'⟩ := insertNodes_invalid db
      (deleteSnapshotByName db name).nextSnapshotId nodes hbad
      { deleteSnapshotByName db name with
        snapshots := (deleteSnapshotByName db name).snapshots ++
          [{ id := (deleteSnapshotByName db name).nextSnapshotId, name := name }],
        nextSnapshotId := (deleteSnapshotByName db name).nextSnapshotId + 1 }
    have hsave : saveSnapshot db name (some nodes) =
        (.badRequest ("Each node must have x, y, and address properties"),
         rollbackDB db cur') := by
      simp only [saveSnapshot]
      rw [if_neg hname]
      exact hcur'
    rw [hsave]
    exact ⟨rfl, ⟨rfl, rfl, rfl, rfl, rfl⟩, rfl⟩

/-- Witness for C2: a replace attempt on the stored snapshot `snap` with
a node missing `y` is rejected and observably changes nothing. -/
theorem c2_witness :
    (saveSnapshot aggDB aggName (some [badNode])).1.isClientError = true ∧
    tablesEq (saveSnapshot aggDB aggName (some [badNode])).2 aggDB ∧
    readSnapshot (saveSnapshot aggDB aggName (some [badNode])).2 aggName =
      readSnapshot aggDB aggName :=
  c2_save_rollback aggDB aggName [badNode] (by decide)

/-- C4: every trace edge a successful snapshot read returns is exactly a
normal `\x7bfrom_addr, to_addr, action\x7d` object or a delegate
`\x7bstorage_addr, to_addr, action\x7d` object — never one normalized
schema — with a matching action class and with both endpoints drawn from
the snapshot's node address set. -/
theorem c4_read_edge_contract (db : DB) (name : String) (out : SnapshotOut) (q : Nat)
    (h : readSnapshot db name = (.ok out, q)) (hne : out.nodes ≠ []) :
    ∀ e ∈ out.traces,
      edgeWellFormed (out.nodes.map (fun nd => nd.address)) e = true := by
  simp only [readSnapshot] at h
  cases hfind : findSnapshotByName db name with
  | none =>
    rw [hfind] at h
    simp at h
  | some snap =>
    rw [hfind] at h
    simp only [] at h
    split at h
    · simp only [Prod.mk.injEq, ReadResult.ok.injEq] at h
      obtain ⟨hout, hq⟩ := h
      subst hout
      intro e he
      cases he
    · simp only [Prod.mk.injEq, ReadResult.ok.injEq] at h
      obtain ⟨hout, hq⟩ := h
      subst hout
      intro e he
      rcases List.mem_append.1 he with hn | hd
      · obtain ⟨k, hk, hke⟩ := List.mem_map.1 hn
        obtain ⟨row, hrow, hkey⟩ := List.mem_map.1 (List.mem_dedup.1 hk)
        obtain ⟨hmem, hpred⟩ := List.mem_filter.1 hrow
        obtain ⟨ha, hf, ht⟩ := of_decide_eq_true hpred
        subst hke
        subst hkey
        simp [edgeWellFormed, ha]
        exact ⟨by simpa using hf, by simpa using ht⟩
      · obtain ⟨k, hk, hke⟩ := List.mem_map.1 hd
        obtain ⟨row, hrow, hkey⟩ := List.mem_map.1 (List.mem_dedup.1 hk)
        obtain ⟨hmem, hpred⟩ := List.mem_filter.1 hrow
        obtain ⟨ha, hs, ht⟩ := of_decide_eq_true hpred
        subst hke
        subst hkey
        simp [edgeWellFormed, ha]
        exact ⟨by simpa using hs, by simpa using ht⟩

/-- Witness for C4: the normal edge of the aggregation scenario satisfies
the edge contract for that snapshot's address set. -/
theorem c4_witness :
    edgeWellFormed (aggOut.nodes.map (fun nd => nd.address)) aggEdgeNormal = true :=
  c4_read_edge_contract aggDB aggName aggOut 2 (by decide) (by decide)
    aggEdgeNormal (by decide)

/-- The triples a `nodeRows` block encodes are recovered by projecting
its rows. -/
theorem nodeRows_map (start sid : Nat) (l : List (Int × Int × String)) :
    (nodeRows start sid l).map (fun nd => (nd.x, nd.y, nd.address)) = l := by
  induction l generalizing start with
  | nil => rfl
  | cons p rest ih => simp [nodeRows, ih]

/-- Every row of a `nodeRows` block is owned by the snapshot it was
inserted for. -/
theorem nodeRows_sid (start sid : Nat) (l : List (Int × Int × String)) :
    ∀ nd ∈ nodeRows start sid l, nd.snapshot_id = sid := by
  induction l generalizing start with
  | nil => intro nd hnd; cases hnd
  | cons p rest ih =>
    intro nd hnd
    rcases List.mem_cons.1 hnd with he | hmem
    · rw [he]
    · exact ih (start + 1) nd hmem

/-- On an all-valid node list the insertion loop succeeds and appends
exactly the corresponding rows, advancing the node sequence. -/
theorem insertNodes_mkNodes (orig : DB) (sid : Nat) (l : List (Int × Int × String)) :
    ∀ cur : DB, insertNodes orig cur sid (mkNodes l) =
      (.ok sid, { cur with
        snapshot_nodes := cur.snapshot_nodes ++ nodeRows cur.nextNodeId sid l,
        nextNodeId := cur.nextNodeId + l.length }) := by
  induction l with
  | nil =>
    intro cur
    simp [mkNodes, insertNodes, nodeRows]
  | cons p rest ih =>
    intro cur
    obtain ⟨ca, cs, cn, ct, cc, cni, cnn⟩ := cur
    simp only [mkNodes, List.map_cons, insertNodes]
    rw [show mkNodes rest = List.map (fun p : Int × Int × String =>
      ({ x := some p.1, y := some p.2.1, address := some p.2.2 } : NodeInput)) rest from rfl] at ih
    rw [ih]
    simp [nodeRows, List.length_cons]
    omega

/-- On a valid body the save handler deletes any snapshot with this name,
inserts the fresh snapshot row and all node rows, and reports the new
surrogate id. -/
theorem saveSnapshot_mkNodes (db : DB) (name : String) (l : List (Int × Int × String))
    (hname : name ≠ "") :
    saveSnapshot db name (some (mkNodes l)) =
      (.ok (deleteSnapshotByName db name).nextSnapshotId,
       { deleteSnapshotByName db name with
         snapshots := (deleteSnapshotByName db name).snapshots ++
           [{ id := (deleteSnapshotByName db name).nextSnapshotId, name := name }],
         snapshot_nodes := (deleteSnapshotByName db name).snapshot_nodes ++
           nodeRows (deleteSnapshotByName db name).nextNodeId
             (deleteSnapshotByName db name).nextSnapshotId l,
         nextSnapshotId := (deleteSnapshotByName db name).nextSnapshotId + 1,
         nextNodeId := (deleteSnapshotByName db name).nextNodeId + l.length }) := by
  simp only [saveSnapshot]
  rw [if_neg hname]
  exact insertNodes_mkNodes db (deleteSnapshotByName db name).nextSnapshotId l
    { deleteSnapshotByName db name with
      snapshots := (deleteSnapshotByName db name).snapshots ++
        [{ id := (deleteSnapshotByName db name).nextSnapshotId, name := name }],
      nextSnapshotId := (deleteSnapshotByName db name).nextSnapshotId + 1 }

/-- The delete branch touches only the two snapshot tables. -/
theorem deleteSnapshotByName_counters (db : DB) (name : String) :
    (deleteSnapshotByName db name).nextSnapshotId = db.nextSnapshotId ∧
    (deleteSnapshotByName db name).nextNodeId = db.nextNodeId := by
  unfold deleteSnapshotByName
  split <;> exact ⟨rfl, rfl⟩

/-- Rows surviving the delete branch were rows of the original table. -/
theorem deleteSnapshotByName_snapshots_sub (db : DB) (name : String) :
    ∀ r ∈ (deleteSnapshotByName db name).snapshots, r ∈ db.snapshots := by
  intro r hr
  unfold deleteSnapshotByName at hr
  cases hfind : findSnapshotByName db name with
  | none => rw [hfind] at hr; exact hr
  | some ex => rw [hfind] at hr; exact (List.mem_filter.1 hr).1

/-- Node rows surviving the delete branch were rows of the original
table. -/
theorem deleteSnapshotByName_nodes_sub (db : DB) (name : String) :
    ∀ nd ∈ (deleteSnapshotByName db name).snapshot_nodes, nd ∈ db.snapshot_nodes := by
  intro nd hnd
  unfold deleteSnapshotByName at hnd
  cases hfind : findSnapshotByName db name with
  | none => rw [hfind] at hnd; exact hnd
  | some ex => rw [hfind] at hnd; exact (List.mem_filter.1 hnd).1

/-- Two members both satisfying a predicate counted at most once are the
same member. -/
theorem countP_le_one_eq {α : Type} (p : α → Bool) (l : List α)
    (h : l.countP p ≤ 1) {a b : α} (ha : a ∈ l) (hb : b ∈ l)
    (hpa : p a = true) (hpb : p b = true) : a = b := by
  have ha' : a ∈ l.filter p := List.mem_filter.2 ⟨ha, hpa⟩
  have hb' : b ∈ l.filter p := List.mem_filter.2 ⟨hb, hpb⟩
  rw [List.countP_eq_length_filter] at h
  cases hfl : l.filter p with
  | nil => rw [hfl] at ha'; cases ha'
  | cons x xs =>
    cases xs with
    | nil =>
      rw [hfl] at ha' hb'
      have h1 : a = x := by simpa using ha'
      have h2 : b = x := by simpa using hb'
      rw [h1, h2]
    | cons y ys =>
      rw [hfl] at h
      simp at h

/-- When the table holds at most one row with this name, no row with the
name survives the delete branch. -/
theorem deleteSnapshotByName_no_name (db : DB) (name : String)
    (hone : db.snapshots.countP (fun r => decide (r.name = name)) ≤ 1) :
    ∀ r ∈ (deleteSnapshotByName db name).snapshots, r.name ≠ name := by
  intro r hr
  unfold deleteSnapshotByName at hr
  cases hfind : findSnapshotByName db name with
  | none =>
    rw [hfind] at hr
    intro hn
    have := List.find?_eq_none.1 hfind r hr
    simp [hn] at this
  | some ex =>
    rw [hfind] at hr
    obtain ⟨hmem, hpred⟩ := List.mem_filter.1 hr
    have hne : r.id ≠ ex.id := of_decide_eq_true hpred
    intro hn
    have hexmem : ex ∈ db.snapshots := List.mem_of_find?_eq_some hfind
    have hexpred := List.find?_some hfind
    have hexname : ex.name = name := of_decide_eq_true hexpred
    have : r = ex := countP_le_one_eq _ _ hone hmem hexmem
      (decide_eq_true hn) (decide_eq_true hexname)
    exact hne (by rw [this])

/-- Searching for the name in rows all without it, followed by one row
carrying it, answers exactly that row. -/
theorem find?_name_append (l : List SnapshotRow) (row : SnapshotRow) (name : String)
    (h : ∀ r ∈ l, r.name ≠ name) (hrow : row.name = name) :
    (l ++ [row]).find? (fun r => decide (r.name = name)) = some row := by
  rw [List.find?_append]
  have h1 : l.find? (fun r => decide (r.name = name)) = none :=
    List.find?_eq_none.2 (fun r hr => by simpa using h r hr)
  rw [h1]
  simp [List.find?, hrow]

/-- Reducing the delete branch once the lookup answer is known. -/
theorem deleteSnapshotByName_of_find (d : DB) (name : String) (row : SnapshotRow)
    (hfind : findSnapshotByName d name = some row) :
    deleteSnapshotByName d name =
      { d with
        snapshot_nodes := d.snapshot_nodes.filter
          (fun nd => decide (nd.snapshot_id ≠ row.id)),
        snapshots := d.snapshots.filter (fun r => decide (r.id ≠ row.id)) } := by
  unfold deleteSnapshotByName
  rw [hfind]

/-- C1: saving twice under one name (well-formed store: surrogate ids
below the sequence, at most one row with the name) leaves exactly the
second node set persisted under that name — the snapshot row is replaced
by a fresh one (new id), the name maps to exactly that row, its node set
is exactly the second list, and no node of the first save survives. -/
theorem c1_replace_total (db : DB) (name : String) (S1 S2 : List (Int × Int × String))
    (id1 id2 : Nat) (db1 db2 : DB)
    (hsfresh : ∀ r ∈ db.snapshots, r.id < db.nextSnapshotId)
    (hnfresh : ∀ nd ∈ db.snapshot_nodes, nd.snapshot_id < db.nextSnapshotId)
    (hone : db.snapshots.countP (fun r => decide (r.name = name)) ≤ 1)
    (h1 : saveSnapshot db name (some (mkNodes S1)) = (.ok id1, db1))
    (h2 : saveSnapshot db1 name (some (mkNodes S2)) = (.ok id2, db2)) :
    id1 ≠ id2 ∧
    db2.snapshots.filter (fun r => decide (r.name = name)) =
      [{ id := id2, name := name }] ∧
    (db2.snapshot_nodes.filter (fun nd => decide (nd.snapshot_id = id2))).map
      (fun nd => (nd.x, nd.y, nd.address)) = S2 ∧
    db2.snapshot_nodes.filter (fun nd => decide (nd.snapshot_id = id1)) = [] := by
  have hname : name ≠ "" := by
    intro he
    subst he
    simp [saveSnapshot] at h1
  have hDc := deleteSnapshotByName_counters db name
  have hDn := deleteSnapshotByName_no_name db name hone
  rw [saveSnapshot_mkNodes db name S1 hname] at h1
  simp only [Prod.mk.injEq, SaveResult.ok.injEq] at h1
  obtain ⟨hid1, hdb1⟩ := h1
  subst hid1
  have hdb1s : db1.snapshots = (deleteSnapshotByName db name).snapshots ++
      [⟨(deleteSnapshotByName db name).nextSnapshotId, none, name, none⟩] := by
    rw [← hdb1]
  have hdb1n : db1.snapshot_nodes = (deleteSnapshotByName db name).snapshot_nodes ++
      nodeRows (deleteSnapshotByName db name).nextNodeId
        (deleteSnapshotByName db name).nextSnapshotId S1 := by
    rw [← hdb1]
  have hdb1i : db1.nextSnapshotId = (deleteSnapshotByName db name).nextSnapshotId + 1 := by
    rw [← hdb1]
  have hdb1nn : db1.nextNodeId =
      (deleteSnapshotByName db name).nextNodeId + S1.length := by
    rw [← hdb1]
  have hfind1 : findSnapshotByName db1 name =
      some ⟨(deleteSnapshotByName db name).nextSnapshotId, none, name, none⟩ := by
    unfold findSnapshotByName
    rw [hdb1s]
    exact find?_name_append (deleteSnapshotByName db name).snapshots _ name hDn rfl
  have hdel1 := deleteSnapshotByName_of_find db1 name
    ⟨(deleteSnapshotByName db name).nextSnapshotId, none, name, none⟩ hfind1
  dsimp only at hdel1
  have hfs : db1.snapshots.filter
      (fun r => decide (r.id ≠ (deleteSnapshotByName db name).nextSnapshotId)) =
      (deleteSnapshotByName db name).snapshots := by
    rw [hdb1s, List.filter_append]
    have hA : (deleteSnapshotByName db name).snapshots.filter
        (fun r => decide (r.id ≠ (deleteSnapshotByName db name).nextSnapshotId)) =
        (deleteSnapshotByName db name).snapshots :=
      List.filter_eq_self.2 (fun r hr => decide_eq_true (by
        have h' := hsfresh r (deleteSnapshotByName_snapshots_sub db name r hr)
        have hc := hDc.1
        omega))
    have hB : ([(⟨(deleteSnapshotByName db name).nextSnapshotId, none, name, none⟩ :
        SnapshotRow)].filter
        (fun r => decide (r.id ≠ (deleteSnapshotByName db name).nextSnapshotId))) = [] := by
      simp
    rw [hA, hB, List.append_nil]
  have hfn : db1.snapshot_nodes.filter
      (fun nd => decide (nd.snapshot_id ≠ (deleteSnapshotByName db name).nextSnapshotId)) =
      (deleteSnapshotByName db name).snapshot_nodes := by
    rw [hdb1n, List.filter_append]
    have hA : (deleteSnapshotByName db name).snapshot_nodes.filter
        (fun nd => decide (nd.snapshot_id ≠ (deleteSnapshotByName db name).nextSnapshotId)) =
        (deleteSnapshotByName db name).snapshot_nodes :=
      List.filter_eq_self.2 (fun nd hnd => decide_eq_true (by
        have h' := hnfresh nd (deleteSnapshotByName_nodes_sub db name nd hnd)
        have hc := hDc.1
        omega))
    have hB : ((nodeRows (deleteSnapshotByName db name).nextNodeId
        (deleteSnapshotByName db name).nextSnapshotId S1).filter
        (fun nd => decide (nd.snapshot_id ≠ (deleteSnapshotByName db name).nextSnapshotId))) = [] :=
      List.filter_eq_nil_iff.2 (fun nd hnd => by
        rw [nodeRows_sid (deleteSnapshotByName db name).nextNodeId
          (deleteSnapshotByName db name).nextSnapshotId S1 nd hnd]
        simp)
    rw [hA, hB, List.append_nil]
  have hdel1' : deleteSnapshotByName db1 name = { db1 with
      snapshot_nodes := (deleteSnapshotByName db name).snapshot_nodes,
      snapshots := (deleteSnapshotByName db name).snapshots } := by
    rw [hdel1, hfs, hfn]
  rw [saveSnapshot_mkNodes db1 name S2 hname] at h2
  rw [hdel1'] at h2
  dsimp only at h2
  rw [hdb1i, hdb1nn] at h2
  simp only [Prod.mk.injEq, SaveResult.ok.injEq] at h2
  obtain ⟨hid2, hdb2⟩ := h2
  subst hid2
  have hdb2s : db2.snapshots = (deleteSnapshotByName db name).snapshots ++
      [⟨(deleteSnapshotByName db name).nextSnapshotId + 1, none, name, none⟩] := by
    rw [← hdb2]
  have hdb2n : db2.snapshot_nodes = (deleteSnapshotByName db name).snapshot_nodes ++
      nodeRows ((deleteSnapshotByName db name).nextNodeId + S1.length)
        ((deleteSnapshotByName db name).nextSnapshotId + 1) S2 := by
    rw [← hdb2]
  refine ⟨by omega, ?_, ?_, ?_⟩
  · rw [hdb2s, List.filter_append]
    have hC : (deleteSnapshotByName db name).snapshots.filter
        (fun r => decide (r.name = name)) = [] :=
      List.filter_eq_nil_iff.2 (fun r hr => by simpa using hDn r hr)
    rw [hC]
    simp
  · rw [hdb2n, List.filter_append]
    have hD1 : (deleteSnapshotByName db name).snapshot_nodes.filter
        (fun nd => decide (nd.snapshot_id = (deleteSnapshotByName db name).nextSnapshotId + 1)) = [] :=
      List.filter_eq_nil_iff.2 (fun nd hnd => by
        have h' := hnfresh nd (deleteSnapshotByName_nodes_sub db name nd hnd)
        have hc := hDc.1
        simp only [decide_eq_true_eq]
        omega)
    have hD2 : ((nodeRows ((deleteSnapshotByName db name).nextNodeId + S1.length)
        ((deleteSnapshotByName db name).nextSnapshotId + 1) S2).filter
        (fun nd => decide (nd.snapshot_id = (deleteSnapshotByName db name).nextSnapshotId + 1))) =
        nodeRows ((deleteSnapshotByName db name).nextNodeId + S1.length)
          ((deleteSnapshotByName db name).nextSnapshotId + 1) S2 :=
      List.filter_eq_self.2 (fun nd hnd => decide_eq_true
        (nodeRows_sid ((deleteSnapshotByName db name).nextNodeId + S1.length)
          ((deleteSnapshotByName db name).nextSnapshotId + 1) S2 nd hnd))
    rw [hD1, hD2, List.nil_append, nodeRows_map]
  · rw [hdb2n, List.filter_append]
    have hE1 : (deleteSnapshotByName db name).snapshot_nodes.filter
        (fun nd => decide (nd.snapshot_id = (deleteSnapshotByName db name).nextSnapshotId)) = [] :=
      List.filter_eq_nil_iff.2 (fun nd hnd => by
        have h' := hnfresh nd (deleteSnapshotByName_nodes_sub db name nd hnd)
        have hc := hDc.1
        simp only [decide_eq_true_eq]
        omega)
    have hE2 : ((nodeRows ((deleteSnapshotByName db name).nextNodeId + S1.length)
        ((deleteSnapshotByName db name).nextSnapshotId + 1) S2).filter
        (fun nd => decide (nd.snapshot_id = (deleteSnapshotByName db name).nextSnapshotId))) = [] :=
      List.filter_eq_nil_iff.2 (fun nd hnd => by
        have hsid := nodeRows_sid ((deleteSnapshotByName db name).nextNodeId + S1.length)
          ((deleteSnapshotByName db name).nextSnapshotId + 1) S2 nd hnd
        simp only [hsid, decide_eq_true_eq]
        omega)
    rw [hE1, hE2]
    rfl

/-- Witness for C1: on an empty store, saving `layout` with one node and
then with another leaves exactly the second node set under a fresh id. -/
theorem c1_witness :
    (0 : Nat) ≠ 1 ∧
    c1DB2.snapshots.filter (fun r => decide (r.name = "layout")) =
      [{ id := 1, name := "layout" }] ∧
    (c1DB2.snapshot_nodes.filter (fun nd => decide (nd.snapshot_id = 1))).map
      (fun nd => (nd.x, nd.y, nd.address)) = c1S2 ∧
    c1DB2.snapshot_nodes.filter (fun nd => decide (nd.snapshot_id = 0)) = [] :=
  c1_replace_total dbEmpty ("layout") c1S1 c1S2 0 1 c1DB1 c1DB2
    (by decide) (by decide) (by decide) (by decide) (by decide)
